import Mathlib

/-!
Verification of the DNA sequence generator script (`src/main.py`).

The program generates a random DNA sequence over the alphabet {A, C, G, T},
inserts a user-supplied name at a random position, computes compositional
statistics over the alphabet characters only, and writes a two-line FASTA
record.  Strings are modelled as `List Char`; Python's global random source
is modelled as an explicit stream `r : Nat → Nat` of draws (`random.choice`
picks the element at index `r i % 4` of the alphabet), and the insertion
position chosen by `random.randint(0, len(sequence))` becomes an explicit
parameter bounded by the sequence length.  Floating-point arithmetic is
modelled exactly over `ℚ`.  A Python exception (the `ZeroDivisionError`
raised by the percentage computation on an empty filtered string) is
modelled by an `Option` result.
-/

/-- The DNA alphabet string `'ACGT'` used by `random.choice` and the filters. -/
def dna_alphabet : List Char := ['A', 'C', 'G', 'T']

/-- Membership test `char in 'ACGT'` from `calculate_statistics`. -/
def isNucleotide (c : Char) : Bool :=
  c = 'A' || c = 'C' || c = 'G' || c = 'T'

/-- `generate_dna_sequence(length)`: builds a string of `length` characters,
each obtained by `random.choice('ACGT')`.  The random stream `r` supplies the
draw for each position; `random.choice` returns the alphabet element at the
drawn index (reduced mod 4, the alphabet size). -/
def generate_dna_sequence (length : Nat) (r : Nat → Nat) : List Char :=
  (List.range length).map (fun i => dna_alphabet.getD (r i % 4) 'A')

/-- `insert_name_into_sequence(sequence, name)`: returns
`sequence[:position] + name + sequence[position:]` where `position` is drawn
by `random.randint(0, len(sequence))`; the drawn position is an explicit
parameter here. -/
def insert_name_into_sequence (sequence name : List Char) (position : Nat) :
    List Char :=
  sequence.take position ++ name ++ sequence.drop position

/-- The record returned by `calculate_statistics`: the per-nucleotide
percentages dictionary, the %CG value, and the C:G to A:T ratio. -/
structure Stats where
  pA : ℚ
  pC : ℚ
  pG : ℚ
  pT : ℚ
  cg_percentage : ℚ
  cg_ratio : ℚ
  deriving DecidableEq, Repr

/-- `calculate_statistics(sequence)`: filters the input to alphabet
characters, counts each nucleotide, and computes percentages, the C:G to A:T
ratio (with an explicit 0 fallback when there are no A/T characters), and
%CG.  When the filtered string is empty the percentage computation divides
by zero and Python raises `ZeroDivisionError`: that is the `none` case. -/
def calculate_statistics (sequence : List Char) : Option Stats :=
  let sequence_without_name := sequence.filter isNucleotide
  let len := sequence_without_name.length
  let countA := sequence_without_name.count 'A'
  let countC := sequence_without_name.count 'C'
  let countG := sequence_without_name.count 'G'
  let countT := sequence_without_name.count 'T'
  if len = 0 then none
  else some
    { pA := ((countA : ℚ) / len) * 100
      pC := ((countC : ℚ) / len) * 100
      pG := ((countG : ℚ) / len) * 100
      pT := ((countT : ℚ) / len) * 100
      cg_percentage := ((countC : ℚ) / len) * 100 + ((countG : ℚ) / len) * 100
      cg_ratio :=
        if countA + countT > 0 then
          ((countC : ℚ) + countG) / ((countA : ℚ) + countT)
        else 0 }

/-- The fixed `.fasta` extension appended to the identifier. -/
def fasta_extension : List Char := ['.', 'f', 'a', 's', 't', 'a']

/-- The filename `f"{sequence_id}.fasta"` built by `save_to_fasta_file`. -/
def fastaFilename (sequence_id : List Char) : List Char :=
  sequence_id ++ fasta_extension

/-- The record text `f">{sequence_id} {description}\n{sequence}\n"` written
by `save_to_fasta_file`. -/
def fastaRecord (sequence_id description sequence : List Char) : List Char :=
  '>' :: sequence_id ++ ' ' :: description ++ '\n' :: sequence ++ ['\n']

/-- `save_to_fasta_file(sequence_id, description, sequence)`: attempts to
write the FASTA record; an `IOError` is caught and logged and the function
still returns the filename.  The success of the external write is modelled
by the boolean `writeOk`; the first component is the returned filename, the
second is the content stored on disk (`none` when the write failed). -/
def save_to_fasta_file (sequence_id description sequence : List Char)
    (writeOk : Bool) : List Char × Option (List Char) :=
  let filename := fastaFilename sequence_id
  (filename,
    if writeOk then some (fastaRecord sequence_id description sequence)
    else none)

/-- The length-collection loop of `main`: each console line either fails
`int(...)` parsing (`none`) or parses to an integer (`some n`); the loop
re-prompts on a parse failure or a non-positive value and accepts the first
positive integer. -/
def read_sequence_length : List (Option Int) → Option Int
  | [] => none
  | none :: rest => read_sequence_length rest
  | some n :: rest =>
      if n ≤ 0 then read_sequence_length rest else some n

/-- The driver's generation step: `generate_dna_sequence` is invoked exactly
when the length-collection loop accepted a value, and with that value. -/
def main_generate (inputs : List (Option Int)) (r : Nat → Nat) :
    Option (List Char) :=
  (read_sequence_length inputs).map
    (fun n => generate_dna_sequence n.toNat r)

/-! ### Helper lemmas -/

theorem generate_all_nucleotide (n : Nat) (r : Nat → Nat) :
    ∀ c ∈ generate_dna_sequence n r, isNucleotide c = true := by
  intro c hc
  simp only [generate_dna_sequence, List.mem_map] at hc
  obtain ⟨i, -, rfl⟩ := hc
  have h4 : r i % 4 < 4 := Nat.mod_lt _ (by omega)
  revert h4
  generalize r i % 4 = m
  revert m
  decide

theorem generate_length (n : Nat) (r : Nat → Nat) :
    (generate_dna_sequence n r).length = n := by
  simp [generate_dna_sequence]

theorem filter_generate (n : Nat) (r : Nat → Nat) :
    (generate_dna_sequence n r).filter isNucleotide = generate_dna_sequence n r :=
  List.filter_eq_self.mpr (generate_all_nucleotide n r)

theorem count_nucleotide_partition (l : List Char)
    (h : ∀ c ∈ l, isNucleotide c = true) :
    l.count 'A' + l.count 'C' + l.count 'G' + l.count 'T' = l.length := by
  induction l with
  | nil => rfl
  | cons a t ih =>
      have ha : isNucleotide a = true := h a (List.mem_cons_self a t)
      have ht := ih (fun c hc => h c (List.mem_cons_of_mem a hc))
      have ha4 : a = 'A' ∨ a = 'C' ∨ a = 'G' ∨ a = 'T' := by
        have := ha
        simp only [isNucleotide, Bool.or_eq_true, decide_eq_true_eq] at this
        tauto
      simp only [List.count_cons, List.length_cons]
      rcases ha4 with rfl | rfl | rfl | rfl <;> simp <;> omega

theorem stats_filter_congr (s₁ s₂ : List Char)
    (h : s₁.filter isNucleotide = s₂.filter isNucleotide) :
    calculate_statistics s₁ = calculate_statistics s₂ := by
  simp only [calculate_statistics, h]

theorem filter_insert_of_nonalphabet (s name : List Char) (pos : Nat)
    (hname : ∀ c ∈ name, isNucleotide c = false) :
    (insert_name_into_sequence s name pos).filter isNucleotide =
      s.filter isNucleotide := by
  have hnil : name.filter isNucleotide = [] := by
    rw [List.filter_eq_nil_iff]
    intro a ha
    simp [hname a ha]
  calc (insert_name_into_sequence s name pos).filter isNucleotide
      = (s.take pos).filter isNucleotide ++ name.filter isNucleotide ++
          (s.drop pos).filter isNucleotide := by
        simp [insert_name_into_sequence, List.filter_append]
    _ = (s.take pos ++ s.drop pos).filter isNucleotide := by
        rw [hnil, List.append_nil, List.filter_append]
    _ = s.filter isNucleotide := by rw [List.take_append_drop]

/-! ### Claim theorems -/

/-- C1: for every sequence `S`, label `La` and insertion index `I` with
`0 ≤ I ≤ len S` (the range of `random.randint(0, len(sequence))`), the
Label Embedder returns `S[0:I] + La + S[I:]`, whose length is
`len S + len La`, and `S` is preserved as a subsequence in order. -/
theorem C1_embedder_splices (S La : List Char) (I : Nat) (hI : I ≤ S.length) :
    (insert_name_into_sequence S La I).length = S.length + La.length ∧
    insert_name_into_sequence S La I = S.take I ++ La ++ S.drop I ∧
    S.Sublist (insert_name_into_sequence S La I) := by
  refine ⟨?_, rfl, ?_⟩
  · simp [insert_name_into_sequence]
    omega
  · conv_lhs => rw [← List.take_append_drop I S]
    unfold insert_name_into_sequence
    rw [List.append_assoc]
    exact List.Sublist.append_left (List.sublist_append_right La (S.drop I)) _

/-- Witness for C1 at `S = "AC"`, `La = "x"`, `I = 1`. -/
theorem C1_embedder_splices_witness :
    (insert_name_into_sequence ['A', 'C'] ['x'] 1).length =
      (['A', 'C'] : List Char).length + (['x'] : List Char).length ∧
    insert_name_into_sequence ['A', 'C'] ['x'] 1 =
      (['A', 'C'] : List Char).take 1 ++ ['x'] ++ (['A', 'C'] : List Char).drop 1 ∧
    List.Sublist ['A', 'C'] (insert_name_into_sequence ['A', 'C'] ['x'] 1) :=
  C1_embedder_splices ['A', 'C'] ['x'] 1 (by decide)

/-- C2: for every `N ≥ 1` and every random stream, the Sequence Generator
returns a string of length exactly `N` whose characters all lie in
`{A, C, G, T}`. -/
theorem C2_generator_alphabet (n : Nat) (r : Nat → Nat) (_hn : 1 ≤ n) :
    (generate_dna_sequence n r).length = n ∧
    ∀ c ∈ generate_dna_sequence n r, isNucleotide c = true :=
  ⟨generate_length n r, generate_all_nucleotide n r⟩

/-- Witness for C2 at `N = 3` and the constant stream `1`. -/
theorem C2_generator_alphabet_witness :
    (generate_dna_sequence 3 (fun _ => 1)).length = 3 ∧
    ∀ c ∈ generate_dna_sequence 3 (fun _ => 1), isNucleotide c = true :=
  C2_generator_alphabet 3 (fun _ => 1) (by decide)

/-- C6: the Record Writer returns the filename `<identifier>.fasta` whether
or not the write succeeded, so the return value never distinguishes success
from failure. -/
theorem C6_writer_filename (sequence_id description sequence : List Char)
    (writeOk : Bool) :
    (save_to_fasta_file sequence_id description sequence writeOk).1 =
      sequence_id ++ fasta_extension ∧
    (save_to_fasta_file sequence_id description sequence true).1 =
      (save_to_fasta_file sequence_id description sequence false).1 :=
  ⟨rfl, rfl⟩

theorem calculate_statistics_some (s : List Char)
    (h : (s.filter isNucleotide).length ≠ 0) :
    calculate_statistics s = some
      { pA := (((s.filter isNucleotide).count 'A' : ℚ) /
          (s.filter isNucleotide).length) * 100
        pC := (((s.filter isNucleotide).count 'C' : ℚ) /
          (s.filter isNucleotide).length) * 100
        pG := (((s.filter isNucleotide).count 'G' : ℚ) /
          (s.filter isNucleotide).length) * 100
        pT := (((s.filter isNucleotide).count 'T' : ℚ) /
          (s.filter isNucleotide).length) * 100
        cg_percentage := (((s.filter isNucleotide).count 'C' : ℚ) /
          (s.filter isNucleotide).length) * 100 +
          (((s.filter isNucleotide).count 'G' : ℚ) /
          (s.filter isNucleotide).length) * 100
        cg_ratio :=
          if (s.filter isNucleotide).count 'A' +
              (s.filter isNucleotide).count 'T' > 0 then
            (((s.filter isNucleotide).count 'C' : ℚ) +
                (s.filter isNucleotide).count 'G') /
              (((s.filter isNucleotide).count 'A' : ℚ) +
                (s.filter isNucleotide).count 'T')
          else 0 } := by
  simp only [calculate_statistics]
  rw [if_neg h]

/-- C3: for every input whose alphabet-filtered form has positive length
`L`, the Statistics Calculator returns `100 × count(symbol) / L` for each
alphabet symbol; the counts and the denominator range over the filtered
string only. -/
theorem C3_percentages (s : List Char)
    (h : 0 < (s.filter isNucleotide).length) :
    ∃ st, calculate_statistics s = some st ∧
      st.pA = 100 * ((s.filter isNucleotide).count 'A' : ℚ) /
        (s.filter isNucleotide).length ∧
      st.pC = 100 * ((s.filter isNucleotide).count 'C' : ℚ) /
        (s.filter isNucleotide).length ∧
      st.pG = 100 * ((s.filter isNucleotide).count 'G' : ℚ) /
        (s.filter isNucleotide).length ∧
      st.pT = 100 * ((s.filter isNucleotide).count 'T' : ℚ) /
        (s.filter isNucleotide).length := by
  refine ⟨_, calculate_statistics_some s (by omega), ?_, ?_, ?_, ?_⟩ <;>
    dsimp only <;> ring

/-- Witness for C3 at the input `"AxA"` (filtered form `"AA"`, `L = 2`). -/
theorem C3_percentages_witness :
    ∃ st, calculate_statistics ['A', 'x', 'A'] = some st ∧
      st.pA = 100 * (((['A', 'x', 'A'] : List Char).filter isNucleotide).count 'A' : ℚ) /
        ((['A', 'x', 'A'] : List Char).filter isNucleotide).length ∧
      st.pC = 100 * (((['A', 'x', 'A'] : List Char).filter isNucleotide).count 'C' : ℚ) /
        ((['A', 'x', 'A'] : List Char).filter isNucleotide).length ∧
      st.pG = 100 * (((['A', 'x', 'A'] : List Char).filter isNucleotide).count 'G' : ℚ) /
        ((['A', 'x', 'A'] : List Char).filter isNucleotide).length ∧
      st.pT = 100 * (((['A', 'x', 'A'] : List Char).filter isNucleotide).count 'T' : ℚ) /
        ((['A', 'x', 'A'] : List Char).filter isNucleotide).length :=
  C3_percentages ['A', 'x', 'A'] (by decide)

/-- Counterexample for C4 as stated: on the input `"Z"` the filtered string
is empty, `count(A) + count(T) = 0`, yet the Statistics Calculator does not
return a 0 ratio — it raises `ZeroDivisionError` (the `none` case), so the
zero case is not always a returned fallback value. -/
theorem C4_ratio_fallback_cex :
    (((['Z'] : List Char).filter isNucleotide).count 'A' +
      ((['Z'] : List Char).filter isNucleotide).count 'T' = 0) ∧
    calculate_statistics ['Z'] = none := by decide

/-- C4 (amended): for every input whose alphabet-filtered form is nonempty,
the returned ratio equals `(count C + count G) / (count A + count T)` when
`count A + count T > 0` and equals exactly 0 when `count A + count T = 0`,
as a returned fallback value rather than an error; when the filtered form is
empty the Calculator raises `ZeroDivisionError` in the percentage step
before any ratio is produced. -/
theorem C4_ratio_fallback (s : List Char)
    (h : 0 < (s.filter isNucleotide).length) :
    ∃ st, calculate_statistics s = some st ∧
      ((s.filter isNucleotide).count 'A' + (s.filter isNucleotide).count 'T' = 0 →
        st.cg_ratio = 0) ∧
      (0 < (s.filter isNucleotide).count 'A' + (s.filter isNucleotide).count 'T' →
        st.cg_ratio =
          (((s.filter isNucleotide).count 'C' : ℚ) +
              (s.filter isNucleotide).count 'G') /
            (((s.filter isNucleotide).count 'A' : ℚ) +
              (s.filter isNucleotide).count 'T')) := by
  refine ⟨_, calculate_statistics_some s (by omega), ?_, ?_⟩ <;> dsimp only
  · intro hz
    rw [if_neg (by omega)]
  · intro hp
    rw [if_pos (by omega)]

/-- Witness for C4 (amended) at the input `"CG"` (no A/T characters, ratio
fallback 0 returned). -/
theorem C4_ratio_fallback_witness :
    ∃ st, calculate_statistics ['C', 'G'] = some st ∧
      (((['C', 'G'] : List Char).filter isNucleotide).count 'A' +
          ((['C', 'G'] : List Char).filter isNucleotide).count 'T' = 0 →
        st.cg_ratio = 0) ∧
      (0 < ((['C', 'G'] : List Char).filter isNucleotide).count 'A' +
          ((['C', 'G'] : List Char).filter isNucleotide).count 'T' →
        st.cg_ratio =
          ((((['C', 'G'] : List Char).filter isNucleotide).count 'C' : ℚ) +
              ((['C', 'G'] : List Char).filter isNucleotide).count 'G') /
            ((((['C', 'G'] : List Char).filter isNucleotide).count 'A' : ℚ) +
              ((['C', 'G'] : List Char).filter isNucleotide).count 'T')) :=
  C4_ratio_fallback ['C', 'G'] (by decide)

/-- C5: for `N ≥ 1`, any random stream, any label and any insertion position
in range, the combined sequence's alphabet-filtered length is at least `N`,
so the Statistics Calculator never divides by zero (it returns a value). -/
theorem C5_no_division_by_zero (n : Nat) (r : Nat → Nat) (name : List Char)
    (pos : Nat) (hn : 1 ≤ n)
    (hpos : pos ≤ (generate_dna_sequence n r).length) :
    n ≤ ((insert_name_into_sequence (generate_dna_sequence n r) name pos).filter
        isNucleotide).length ∧
    ∃ st, calculate_statistics
        (insert_name_into_sequence (generate_dna_sequence n r) name pos) =
          some st := by
  have hlen : (generate_dna_sequence n r).length = n := generate_length n r
  have hfilter_take :
      ((generate_dna_sequence n r).take pos).filter isNucleotide =
        (generate_dna_sequence n r).take pos :=
    List.filter_eq_self.mpr
      (fun c hc => generate_all_nucleotide n r c (List.take_subset _ _ hc))
  have hfilter_drop :
      ((generate_dna_sequence n r).drop pos).filter isNucleotide =
        (generate_dna_sequence n r).drop pos :=
    List.filter_eq_self.mpr
      (fun c hc => generate_all_nucleotide n r c (List.drop_subset _ _ hc))
  have hkey : n ≤ ((insert_name_into_sequence (generate_dna_sequence n r)
      name pos).filter isNucleotide).length := by
    simp only [insert_name_into_sequence, List.filter_append,
      List.length_append, hfilter_take, hfilter_drop, List.length_take,
      List.length_drop, hlen]
    omega
  exact ⟨hkey, ⟨_, calculate_statistics_some _ (by omega)⟩⟩

/-- Witness for C5 at `N = 2`, constant stream `2`, label `"x"`,
position `1`. -/
theorem C5_no_division_by_zero_witness :
    2 ≤ ((insert_name_into_sequence (generate_dna_sequence 2 (fun _ => 2))
        ['x'] 1).filter isNucleotide).length ∧
    ∃ st, calculate_statistics
        (insert_name_into_sequence (generate_dna_sequence 2 (fun _ => 2))
          ['x'] 1) = some st :=
  C5_no_division_by_zero 2 (fun _ => 2) ['x'] 1 (by decide) (by decide)

theorem read_sequence_length_pos :
    ∀ (inputs : List (Option Int)) (n : Int),
      read_sequence_length inputs = some n → 0 < n := by
  intro inputs
  induction inputs with
  | nil => intro n h; simp [read_sequence_length] at h
  | cons i rest ih =>
      intro n h
      match i with
      | none => exact ih n h
      | some m =>
          simp only [read_sequence_length] at h
          by_cases hm : m ≤ 0
          · rw [if_pos hm] at h
            exact ih n h
          · rw [if_neg hm] at h
            obtain rfl : m = n := Option.some.inj h
            omega

/-- Counterexample for C7 as stated: with a description containing an
embedded newline (`"a\nb"`), the record holds three newline characters, so
it is not "exactly two newline-terminated lines". -/
theorem C7_fasta_record_cex :
    (fastaRecord ['i'] ['a', '\n', 'b'] ['A']).count '\n' = 3 := by decide

/-- C7 (amended): the record written is exactly the text
`'>' + identifier + ' ' + description + '\n' + payload + '\n'`, stored under
the name `<identifier>.fasta` regardless of content; it consists of exactly
two newline-terminated lines provided the identifier, the description and
the payload themselves contain no newline character. -/
theorem C7_fasta_record (sequence_id description sequence : List Char)
    (h1 : '\n' ∉ sequence_id) (h2 : '\n' ∉ description)
    (h3 : '\n' ∉ sequence) :
    fastaRecord sequence_id description sequence =
      ('>' :: sequence_id ++ ' ' :: description) ++
        '\n' :: (sequence ++ ['\n']) ∧
    (fastaRecord sequence_id description sequence).count '\n' = 2 ∧
    '\n' ∉ ('>' :: sequence_id ++ ' ' :: description) ∧
    (save_to_fasta_file sequence_id description sequence true).2 =
      some (fastaRecord sequence_id description sequence) ∧
    ∀ writeOk, (save_to_fasta_file sequence_id description sequence writeOk).1 =
      sequence_id ++ fasta_extension := by
  refine ⟨by simp [fastaRecord], ?_, ?_, rfl, fun writeOk => rfl⟩
  · have c1 : List.count '\n' sequence_id = 0 := List.count_eq_zero.mpr h1
    have c2 : List.count '\n' description = 0 := List.count_eq_zero.mpr h2
    have c3 : List.count '\n' sequence = 0 := List.count_eq_zero.mpr h3
    simp +decide [fastaRecord, List.count_append, List.count_cons, c1, c2, c3]
  · simp +decide [List.mem_cons, List.mem_append, h1, h2]

/-- Witness for C7 (amended) at identifier `"i"`, description `"d"`,
payload `"AC"`. -/
theorem C7_fasta_record_witness :
    fastaRecord ['i'] ['d'] ['A', 'C'] =
      ('>' :: ['i'] ++ ' ' :: ['d']) ++ '\n' :: (['A', 'C'] ++ ['\n']) ∧
    (fastaRecord ['i'] ['d'] ['A', 'C']).count '\n' = 2 ∧
    '\n' ∉ ('>' :: ['i'] ++ ' ' :: ['d']) ∧
    (save_to_fasta_file ['i'] ['d'] ['A', 'C'] true).2 =
      some (fastaRecord ['i'] ['d'] ['A', 'C']) ∧
    ∀ writeOk, (save_to_fasta_file ['i'] ['d'] ['A', 'C'] writeOk).1 =
      ['i'] ++ fasta_extension :=
  C7_fasta_record ['i'] ['d'] ['A', 'C'] (by decide) (by decide) (by decide)

/-- C8: in the length-collection loop, a parse failure or a non-positive
value re-prompts without advancing; every accepted value is positive, and
the Generator is invoked exactly with an accepted positive length. -/
theorem C8_driver_validation :
    (∀ rest, read_sequence_length (none :: rest) = read_sequence_length rest) ∧
    (∀ (m : Int) (rest : List (Option Int)), m ≤ 0 →
      read_sequence_length (some m :: rest) = read_sequence_length rest) ∧
    (∀ (inputs : List (Option Int)) (n : Int),
      read_sequence_length inputs = some n → 0 < n) ∧
    (∀ (inputs : List (Option Int)) (r : Nat → Nat) (s : List Char),
      main_generate inputs r = some s →
      ∃ n : Int, read_sequence_length inputs = some n ∧ 0 < n ∧
        s = generate_dna_sequence n.toNat r) := by
  refine ⟨fun rest => rfl, ?_, read_sequence_length_pos, ?_⟩
  · intro m rest hm
    simp only [read_sequence_length, if_pos hm]
  · intro inputs r s h
    unfold main_generate at h
    cases hread : read_sequence_length inputs with
    | none => rw [hread] at h; simp at h
    | some n =>
        rw [hread] at h
        exact ⟨n, rfl, read_sequence_length_pos inputs n hread,
          (Option.some.inj h).symm⟩

/-- Witness for C8: the inputs `-5`, a parse failure, then `3` lead to
re-prompts and finally acceptance of `3`; the Generator runs on `3`. -/
theorem C8_driver_validation_witness :
    read_sequence_length (none :: [some 3]) = read_sequence_length [some 3] ∧
    read_sequence_length (some (-5) :: [some 3]) =
      read_sequence_length [some 3] ∧
    (0 : Int) < 3 ∧
    ∃ n : Int, read_sequence_length [some (-5), none, some 3] = some n ∧
      0 < n ∧ (['A', 'A', 'A'] : List Char) =
        generate_dna_sequence n.toNat (fun _ => 0) :=
  ⟨C8_driver_validation.1 [some 3],
   C8_driver_validation.2.1 (-5) [some 3] (by decide),
   C8_driver_validation.2.2.1 [some 3] 3 (by decide),
   C8_driver_validation.2.2.2 [some (-5), none, some 3] (fun _ => 0)
     ['A', 'A', 'A'] (by decide)⟩

/-- C9: when the label contributes no alphabet characters, the filtered
string is exactly the generated sequence and the four percentages sum to
exactly 100 over rational arithmetic. -/
theorem C9_percentages_sum_100 (n : Nat) (r : Nat → Nat) (name : List Char)
    (pos : Nat) (hn : 1 ≤ n)
    (_hpos : pos ≤ (generate_dna_sequence n r).length)
    (hname : ∀ c ∈ name, isNucleotide c = false) :
    ((insert_name_into_sequence (generate_dna_sequence n r) name pos).filter
        isNucleotide) = generate_dna_sequence n r ∧
    ∃ st, calculate_statistics
        (insert_name_into_sequence (generate_dna_sequence n r) name pos) =
          some st ∧
      st.pA + st.pC + st.pG + st.pT = 100 := by
  have hfe := filter_insert_of_nonalphabet (generate_dna_sequence n r)
    name pos hname
  have hfg := filter_generate n r
  refine ⟨hfe.trans hfg, ?_⟩
  set comb := insert_name_into_sequence (generate_dna_sequence n r) name pos
    with hcomb
  have hL : (comb.filter isNucleotide).length = n := by
    rw [hfe, hfg, generate_length]
  have hL0 : (comb.filter isNucleotide).length ≠ 0 := by omega
  have hpart := count_nucleotide_partition (comb.filter isNucleotide)
    (fun c hc => (List.mem_filter.mp hc).2)
  refine ⟨_, calculate_statistics_some comb hL0, ?_⟩
  dsimp only
  have hcast : ((comb.filter isNucleotide).count 'A' : ℚ) +
      (comb.filter isNucleotide).count 'C' +
      (comb.filter isNucleotide).count 'G' +
      (comb.filter isNucleotide).count 'T' =
      ((comb.filter isNucleotide).length : ℚ) := by exact_mod_cast hpart
  have hQ0 : ((comb.filter isNucleotide).length : ℚ) ≠ 0 :=
    Nat.cast_ne_zero.mpr hL0
  field_simp
  linarith [hcast]

/-- Witness for C9 at `N = 2`, constant stream `3` (sequence `"TT"`),
label `"x"`, position `0`. -/
theorem C9_percentages_sum_100_witness :
    ((insert_name_into_sequence (generate_dna_sequence 2 (fun _ => 3))
        ['x'] 0).filter isNucleotide) = generate_dna_sequence 2 (fun _ => 3) ∧
    ∃ st, calculate_statistics
        (insert_name_into_sequence (generate_dna_sequence 2 (fun _ => 3))
          ['x'] 0) = some st ∧
      st.pA + st.pC + st.pG + st.pT = 100 :=
  C9_percentages_sum_100 2 (fun _ => 3) ['x'] 0 (by decide) (by decide)
    (by decide)

/-- C10: inserting a label with no alphabet characters at any in-range
position leaves the entire statistics output unchanged. -/
theorem C10_nonalphabet_label_invariant (S name : List Char) (pos : Nat)
    (_hpos : pos ≤ S.length)
    (hname : ∀ c ∈ name, isNucleotide c = false) :
    calculate_statistics (insert_name_into_sequence S name pos) =
      calculate_statistics S :=
  stats_filter_congr _ _ (filter_insert_of_nonalphabet S name pos hname)

/-- Witness for C10 at `S = "AC"`, label `"x!"`, position `1`. -/
theorem C10_nonalphabet_label_invariant_witness :
    calculate_statistics (insert_name_into_sequence ['A', 'C'] ['x', '!'] 1) =
      calculate_statistics ['A', 'C'] :=
  C10_nonalphabet_label_invariant ['A', 'C'] ['x', '!'] 1 (by decide)
    (by decide)
